import Mathlib

/-!
Verification development for the Multilingual Video Text Annotation and
Translation Pipeline.

The Python sources are shallowly embedded as Lean definitions:

* `src/pipeline/translate.py` : `LANG_CODE_MAP`, `translate_text`,
  `translate_detections` (the remote LibreTranslate call is modelled by an
  explicit `RemoteService` oracle, and each function additionally returns the
  number of remote calls it performed).
* `src/pipeline/ocr.py`      : `detect_language`, `group_text_by_lines`.
* `src/app.py`               : `extract_frames_from_video`, the still-image
  branch, the `max_frames` query validation, and the per-job orchestration
  around the translation pass.
* `src/pipeline/overlay.py`  : `draw_bounding_boxes`, `draw_text_annotations`
  and `create_annotated_frame`, embedded over an explicit object store so that
  PIL's `image.copy()` / in-place drawing discipline (which image object each
  drawing call mutates) is visible in the model.

Python dictionaries with a fixed key set are embedded as structures; keys that
may be absent (`translated_text`, `translation_status`, `language`) are
`Option` fields.  Python `str.strip` is `pyStrip` (ASCII whitespace),
`round(x, 1)` on the mean confidence is modelled exactly over the integers in
tenths by `roundHalfEvenDiv` (Python rounds half to even).
-/

/-! ## Embedding of `src/pipeline/translate.py` -/

/-- `LANG_CODE_MAP` from `translate.py`: map from the repo's language codes to
LibreTranslate codes. -/
def LANG_CODE_MAP : List (String × String) :=
  [("eng", "en"), ("hin", "hi"), ("ben", "bn"), ("tam", "ta")]

/-- One possible outcome of the remote LibreTranslate HTTP call in
`translate_text`: an HTTP response with a status code and a JSON object body
(modelled as a string-valued association list), a timeout, a connection error,
or any other exception (e.g. a JSON parse failure). -/
inductive RemoteOutcome where
  | http (status : Nat) (body : List (String × String))
  | timeout
  | connError
  | exnOther
deriving DecidableEq

/-- The remote translation service, as a deterministic oracle from the request
payload `(q, source, target)` to the outcome of the HTTP call. -/
abbrev RemoteService := String → String → String → RemoteOutcome

/-- Python's default whitespace set for `str.strip()` (ASCII part; the inputs
of interest contain no exotic Unicode spaces). -/
def isPyWS (c : Char) : Bool :=
  c = ' ' || c = '\t' || c = '\n' || c = '\r' || c = '\x0b' || c = '\x0c'

/-- Python `text.strip()`. -/
def pyStrip (s : String) : String :=
  String.mk (((s.data.dropWhile isPyWS).reverse.dropWhile isPyWS).reverse)

/-- Python truthiness test `not text or not text.strip()` from
`translate_text` (line 47). -/
def isBlank (s : String) : Bool :=
  s = "" || pyStrip s = ""

/-- Python `result.get("translatedText", text)` on the decoded JSON body. -/
def jsonGetD (body : List (String × String)) (key dflt : String) : String :=
  (body.lookup key).getD dflt

/-- `translate_text` from `translate.py` (lines 28-89).  Returns the value the
Python function returns (`none` models Python `None`) paired with the number
of remote HTTP calls performed (0 or 1).  The early returns for blank text and
for `source_lang == target_lang` happen before the `try` block, so they make
no remote call; a 200 response reads `translatedText` from the body with the
original text as default; every other status and every exception yields
`None`. -/
def translate_text (svc : RemoteService) (text source_lang target_lang : String) :
    Option String × Nat :=
  if isBlank text then (some text, 0)
  else if source_lang = target_lang then (some text, 0)
  else
    match svc text source_lang target_lang with
    | .http status body =>
        if status = 200 then (some (jsonGetD body "translatedText" text), 1)
        else (none, 1)
    | .timeout => (none, 1)
    | .connError => (none, 1)
    | .exnOther => (none, 1)

/-- A detection dict as it flows through the pipeline.  `text`, `bbox`,
`confidence` and `language` are produced by the OCR stage
(`group_text_by_lines`); `translated_text` and `translation_status` are absent
(`none`) until `translate_detections` adds them.  `confidence` is stored in
tenths (ten times the Python float, which always carries exactly one decimal
place after `round(avg_conf, 1)`). -/
structure Detection where
  text : String := ""
  bbox : Int × Int × Int × Int := (0, 0, 0, 0)
  confidence : Int := 0
  language : Option String := none
  translated_text : Option String := none
  translation_status : Option String := none
deriving DecidableEq

/-- `LANG_CODE_MAP.get(det.get("language", "eng"), "en")` from
`translate_detections` (line 107). -/
def sourceCodeOf (det : Detection) : String :=
  (LANG_CODE_MAP.lookup (det.language.getD "eng")).getD "en"

/-- The body of the `for det in detections` loop of `translate_detections`
(lines 106-123), acting on one detection; paired with the number of remote
calls it performed.  Note the Python falsiness test `if translated:` treats
both `None` and the empty string as failure. -/
def translateOne (svc : RemoteService) (target_lang : String) (det : Detection) :
    Detection × Nat :=
  let source_code := sourceCodeOf det
  if source_code = target_lang then
    ({ det with translated_text := some det.text,
                translation_status := some "same_language" }, 0)
  else
    let r := translate_text svc det.text source_code target_lang
    match r.1 with
    | some s =>
        if s = "" then
          ({ det with translated_text := some det.text,
                      translation_status := some "failed" }, r.2)
        else
          ({ det with translated_text := some s,
                      translation_status := some "success" }, r.2)
    | none =>
        ({ det with translated_text := some det.text,
                    translation_status := some "failed" }, r.2)

/-- `translate_detections` from `translate.py` (lines 92-125): updates every
detection in order and returns the updated list, paired with the total number
of remote translation calls made. -/
def translate_detections (svc : RemoteService) (dets : List Detection)
    (target_lang : String) : List Detection × Nat :=
  match dets with
  | [] => ([], 0)
  | d :: rest =>
      let p := translateOne svc target_lang d
      let q := translate_detections svc rest target_lang
      (p.1 :: q.1, p.2 + q.2)

/-- The translation loop of `process_video` in `app.py` (lines 190-191):
`for detections in all_detections: translate_detections(detections, ...)`,
with the job-wide remote-call total. -/
def translate_job (svc : RemoteService) (frames : List (List Detection))
    (target_lang : String) : List (List Detection) × Nat :=
  match frames with
  | [] => ([], 0)
  | f :: rest =>
      let p := translate_detections svc f target_lang
      let q := translate_job svc rest target_lang
      (p.1 :: q.1, p.2 + q.2)

/-- First-occurrence deduplication of a list (used to count distinct
deduplication triples and distinct line keys). -/
def firstOccur {α : Type} [DecidableEq α] (l : List α) : List α :=
  l.foldl (fun acc x => if x ∈ acc then acc else acc ++ [x]) []

/-- The deduplication key of the spec's glossary: the
`(trimmed text, source language, target language)` triple of a detection. -/
def tripleOf (target_lang : String) (det : Detection) : String × String × String :=
  (pyStrip det.text, sourceCodeOf det, target_lang)

/-- The number `M` of distinct `(trimmed text, source, target)` triples across
all frames of a job. -/
def distinctTripleCount (frames : List (List Detection)) (target_lang : String) : Nat :=
  (firstOccur ((frames.flatten).map (tripleOf target_lang))).length

/-- Classification of the remote-call outcomes that `translate.py` treats as
failures: a non-200 HTTP status, a timeout, a connection error, or any other
exception.  (Only `http 200` is the success branch.) -/
def isFailureOutcome : RemoteOutcome → Bool
  | .http s _ => decide (s ≠ 200)
  | .timeout => true
  | .connError => true
  | .exnOther => true

/-! ## The job-scoped translation cache (claim C2)

`app.py` line 24 imports `clear_cache` from `pipeline.translate` and calls it
at line 164 before the job's translation pass, but `src/pipeline/translate.py`
contains no cache and no `clear_cache` definition; only the caller is under
`src/`.  The cache and `clear_cache` are therefore modelled from the spec. -/

/-- Modelled from the spec: the Translation Cache of spec section 3 — "a
mapping keyed by `(normalized_text, source_language, target_language)` to the
translated string" — whose definition is missing from
`src/pipeline/translate.py` (only the `clear_cache` import and call sites
exist under `src/`, in `app.py` lines 24 and 164). -/
abbrev TranslationCache := List ((String × String × String) × String)

/-- Modelled from the spec: `clear_cache`, imported and called by `app.py` but
absent from `src/pipeline/translate.py`.  Spec section 4.4: "the orchestrator
must reset/discard the cache before starting a new job's translation pass";
clearing discards every entry. -/
def clear_cache (_cache : TranslationCache) : TranslationCache := []

/-- The observable translation-related state of one job run of
`process_video`. -/
structure JobRun where
  cacheAtTranslationStart : TranslationCache
  frameResults : List (List Detection)
  remoteCallCount : Nat
deriving DecidableEq

/-- The per-job orchestration of `process_video` (`app.py` lines 163-191)
around the translation stage: starting from whatever cache state `cache0` a
previous job left behind, the orchestrator first runs `clear_cache()` (line
164) and only then runs the translation pass over all frames' detections
(lines 190-191). -/
def process_job (svc : RemoteService) (cache0 : TranslationCache)
    (frames : List (List Detection)) (target_lang : String) : JobRun :=
  let cacheJob := clear_cache cache0
  let tr := translate_job svc frames target_lang
  { cacheAtTranslationStart := cacheJob
    frameResults := tr.1
    remoteCallCount := tr.2 }

/-! ## Concrete inputs used by the witnesses and counterexamples -/

/-- A remote service that always answers 200 with a translation that tags the
query. -/
def svcOK : RemoteService := fun q _ _ => .http 200 [("translatedText", "T:" ++ q)]

/-- A remote service whose every call times out. -/
def svcTimeout : RemoteService := fun _ _ _ => .timeout

/-- A remote service that answers 200 with a JSON body lacking the
`translatedText` field. -/
def svcNoField : RemoteService := fun _ _ _ => .http 200 []

/-- A Hindi detection (source maps to `hi`, so translating to `en` requires a
remote call). -/
def dHola : Detection := { text := "Hola", language := some "hin" }

/-- A detection with empty text. -/
def dEmpty : Detection := { text := "", language := some "hin" }

/-- A detection with whitespace-only text. -/
def dSpace : Detection := { text := " ", language := some "hin" }

/-- An English detection (source maps to `en`). -/
def dHello : Detection := { text := "Hello", language := some "eng" }

/-! ## Embedding of `src/pipeline/ocr.py` -/

/-- A raw word-level box as produced by `detect_text_regions` (lines 59-70 of
`ocr.py`): text, `[x, y, width, height]` box, integer confidence, and the
Tesseract block and line numbers. -/
structure RawBox where
  text : String
  bbox : Int × Int × Int × Int
  confidence : Int
  block_num : Int
  line_num : Int
deriving DecidableEq

/-- Number of characters of `text` lying in the inclusive Unicode range
`[lo, hi]` (the per-script counts of `detect_language`). -/
def countInRange (text : String) (lo hi : Char) : Nat :=
  (text.data.filter (fun c => decide (lo ≤ c) && decide (c ≤ hi))).length

/-- Python `c.isascii() and c.isalpha()`: an ASCII letter. -/
def isAsciiAlpha (c : Char) : Bool :=
  (decide ('a' ≤ c) && decide (c ≤ 'z')) || (decide ('A' ≤ c) && decide (c ≤ 'Z'))

/-- Python `max(counts, key=counts.get)` over the insertion-ordered dict of
`detect_language`: the first entry with the (strictly) greatest count. -/
def pickMaxCount : List (String × Nat) → String × Nat
  | [] => ("eng", 0)
  | x :: xs => xs.foldl (fun acc y => if y.2 > acc.2 then y else acc) x

/-- `detect_language` from `ocr.py` (lines 75-95): count characters in the
Devanagari, Bengali and Tamil Unicode blocks plus ASCII letters, pick the
language with the highest count (dict iteration order `hin, ben, tam, eng`),
defaulting to `eng` when every count is zero. -/
def detect_language (text : String) : String :=
  let devanagari := countInRange text 'ऀ' 'ॿ'
  let bengali := countInRange text 'ঀ' '৿'
  let tamil := countInRange text '஀' '௿'
  let latin := (text.data.filter isAsciiAlpha).length
  let best := pickMaxCount [("hin", devanagari), ("ben", bengali), ("tam", tamil), ("eng", latin)]
  if best.2 > 0 then best.1 else "eng"

/-- The per-line accumulator dict of `group_text_by_lines`
(`{"texts": [], "bboxes": [], "confidences": []}`). -/
structure LineData where
  texts : List String
  bboxes : List (Int × Int × Int × Int)
  confidences : List Int
deriving DecidableEq

/-- The grouping key `(det.get("block_num", 0), det.get("line_num", 0))`. -/
def keyOf (d : RawBox) : Int × Int := (d.block_num, d.line_num)

/-- Appending one word's fields to a line accumulator (the three `append`
calls in the loop of `group_text_by_lines`). -/
def appendWord (ld : LineData) (d : RawBox) : LineData :=
  { texts := ld.texts ++ [d.text]
    bboxes := ld.bboxes ++ [d.bbox]
    confidences := ld.confidences ++ [d.confidence] }

/-- One iteration of the grouping loop over the insertion-ordered `lines`
dict: create the key's empty entry if absent (at the end, Python dict
insertion order), then append the word's fields to it. -/
def insertWord : List ((Int × Int) × LineData) → RawBox → List ((Int × Int) × LineData)
  | [], d => [(keyOf d, appendWord ⟨[], [], []⟩ d)]
  | (k, ld) :: rest, d =>
      if k = keyOf d then (k, appendWord ld d) :: rest
      else (k, ld) :: insertWord rest d

/-- The `lines` dict after the first loop of `group_text_by_lines`. -/
def buildLines (dets : List RawBox) : List ((Int × Int) × LineData) :=
  dets.foldl insertWord []

/-- Lexicographic comparison on `(block_num, line_num)` keys, as used by
Python's `sorted(lines.items())` (keys are unique, so the tuple comparison
never reaches the values). -/
def keyLE (a b : Int × Int) : Bool :=
  decide (a.1 < b.1) || (decide (a.1 = b.1) && decide (a.2 ≤ b.2))

/-- Stable sorted insertion for `sortByKey`. -/
def insertSorted (x : (Int × Int) × LineData) :
    List ((Int × Int) × LineData) → List ((Int × Int) × LineData)
  | [] => [x]
  | y :: ys => if keyLE x.1 y.1 then x :: y :: ys else y :: insertSorted x ys

/-- Python `sorted(lines.items())` (ascending by key). -/
def sortByKey (l : List ((Int × Int) × LineData)) : List ((Int × Int) × LineData) :=
  l.foldr insertSorted []

/-- Python `min` over a nonempty integer list (the empty case never arises:
every `lines` entry holds at least one box). -/
def listMinI : List Int → Int
  | [] => 0
  | x :: xs => xs.foldl min x

/-- Python `max` over a nonempty integer list. -/
def listMaxI : List Int → Int
  | [] => 0
  | x :: xs => xs.foldl max x

/-- Python `round` to the nearest integer with ties to even, applied to the
exact rational `a / n` (with `n > 0`), over the integers. -/
def roundHalfEvenDiv (a n : Int) : Int :=
  let q := Int.ediv a n
  let r := Int.emod a n
  if 2 * r > n then q + 1
  else if 2 * r < n then q
  else if Int.emod q 2 = 0 then q else q + 1

/-- Python `round(sum(confs) / len(confs), 1)`, expressed in tenths: the
mean of the confidences, rounded to one decimal place (half to even), times
ten.  The division is exact rational arithmetic; CPython's binary floats
agree on the integer confidences and list lengths that occur here. -/
def meanConfTenths (confs : List Int) : Int :=
  roundHalfEvenDiv (10 * confs.sum) (confs.length : Int)

/-- The second loop of `group_text_by_lines` (lines 122-138 of `ocr.py`),
merging one line's accumulated words into a single detection. -/
def mergeLine (e : (Int × Int) × LineData) : Detection :=
  let bs := e.2.bboxes
  let x_min := listMinI (bs.map (fun b => b.1))
  let y_min := listMinI (bs.map (fun b => b.2.1))
  let x_max := listMaxI (bs.map (fun b => b.1 + b.2.2.1))
  let y_max := listMaxI (bs.map (fun b => b.2.1 + b.2.2.2))
  let full_text := String.intercalate " " e.2.texts
  { text := full_text
    bbox := (x_min, y_min, x_max - x_min, y_max - y_min)
    confidence := meanConfTenths e.2.confidences
    language := some (detect_language full_text) }

/-- `group_text_by_lines` from `ocr.py` (lines 98-140): group the word boxes
by `(block_num, line_num)` into the insertion-ordered `lines` dict, then emit
one merged detection per key in sorted key order. -/
def group_text_by_lines (dets : List RawBox) : List Detection :=
  if dets = [] then []
  else (sortByKey (buildLines dets)).map mergeLine

/-! Spec-side characterisation of line grouping (claim C7), written from the
spec's words rather than from the code: the words of a key are the word boxes
of the frame sharing that `(block_id, line_id)`, in their original order; the
merged text joins them with single spaces; the merged box is the union (min of
left/top edges, max of right/bottom edges); the merged confidence is the
simple mean rounded to one decimal place. -/

/-- The word boxes of `dets` sharing the key `k`, in their original order. -/
def wordsOfKey (dets : List RawBox) (k : Int × Int) : List RawBox :=
  dets.filter (fun d => decide (keyOf d = k))

/-- Spec: the words joined by single spaces in their original order. -/
def specMergedText (ws : List RawBox) : String :=
  String.intercalate " " (ws.map (fun d => d.text))

/-- Spec: the union of the word boxes — min of left/top edges, max of
right/bottom edges — as an `(x, y, width, height)` box. -/
def specMergedBBox (ws : List RawBox) : Int × Int × Int × Int :=
  let left := listMinI (ws.map (fun d => d.bbox.1))
  let top := listMinI (ws.map (fun d => d.bbox.2.1))
  let right := listMaxI (ws.map (fun d => d.bbox.1 + d.bbox.2.2.1))
  let bottom := listMaxI (ws.map (fun d => d.bbox.2.1 + d.bbox.2.2.2))
  (left, top, right - left, bottom - top)

/-- Spec: the simple mean of the word confidences rounded to one decimal
place, in tenths. -/
def specMeanConfTenths (ws : List RawBox) : Int :=
  roundHalfEvenDiv (10 * (ws.map (fun d => d.confidence)).sum) (ws.length : Int)

/-- The distinct `(block_num, line_num)` keys of a frame, in first-occurrence
order. -/
def distinctKeys (dets : List RawBox) : List (Int × Int) :=
  firstOccur (dets.map keyOf)

/-- The two word boxes of the spec's bounding-box-merge example, on one line:
boxes `(0,0,10,10)` and `(15,5,10,10)`. -/
def demoBoxes : List RawBox :=
  [{ text := "NO", bbox := (0, 0, 10, 10), confidence := 80, block_num := 1, line_num := 1 },
   { text := "SMOKING", bbox := (15, 5, 10, 10), confidence := 90, block_num := 1, line_num := 1 }]

/-- Association lookup in the `lines` dict (proof device for the grouping
argument; Python's `lines[key]` respects it because dict keys are unique). -/
def findLine : List ((Int × Int) × LineData) → (Int × Int) → Option LineData
  | [], _ => none
  | (k, ld) :: rest, k0 => if k = k0 then some ld else findLine rest k0

/-- Appending a run of words to a line accumulator. -/
def appendMany (ld : LineData) (ws : List RawBox) : LineData :=
  ws.foldl appendWord ld

/-- How a run of words extends one (possibly absent) entry of the `lines`
dict: an existing entry accumulates the words; an absent entry is created
exactly when the run is nonempty. -/
def extendEntry : Option LineData → List RawBox → Option LineData
  | some ld, ws => some (appendMany ld ws)
  | none, [] => none
  | none, ws => some (appendMany ⟨[], [], []⟩ ws)

/-- The merged detection the grouper produces for the spec's example line:
text joined with one space, box `(0,0,25,15)`, confidence the mean `85.0`
(in tenths), language classified from the joined text. -/
def gDemo : Detection :=
  { text := "NO SMOKING", bbox := (0, 0, 25, 15), confidence := 850,
    language := some "eng" }

/-! ## Embedding of the frame source and `max_frames` validation
(`src/app.py`) -/

/-- The FastAPI validation of the `max_frames` query parameter of
`POST /api/process` (`app.py` line 130): `Query(8, ge=1, le=20)` accepts
exactly the integers from 1 to 20. -/
def acceptsMaxFrames (n : Int) : Bool :=
  decide (1 ≤ n) && decide (n ≤ 20)

/-- `extract_frames_from_video` from `app.py` (lines 73-102), over an
abstract frame type: the video is its list of decoded frames, `convert`
stands for the `Image.fromarray` + RGB conversion of each kept frame.  The
first pass counts the frames; the second keeps the frames whose index is in
`range(0, total_frames, interval)` and stops as soon as `max_frames` frames
have been collected. -/
def extract_frames_from_video {α : Type} (video : List α) (convert : α → α)
    (max_frames : Nat) : List (Nat × α) :=
  let total_frames := video.length
  if total_frames = 0 then []
  else
    let interval := max 1 (total_frames / max_frames)
    (((video.enum.filter (fun p => p.1 % interval = 0)).map
        (fun p => (p.1, convert p.2))).take max_frames)

/-- The still-image branch of `process_video` (`app.py` line 171):
`frames = [(0, image)]`. -/
def framesForImage {α : Type} (image : α) : List (Nat × α) :=
  [(0, image)]

/-! ## Embedding of `src/pipeline/overlay.py`

PIL images are mutable objects, so the renderer is embedded over an explicit
object store: an image reference is an index into a list of image contents,
`image.copy()` allocates a fresh reference holding the same content, and each
`ImageDraw` call overwrites the content at the reference it was created on.
Image content is a pixel function; the glyph rasteriser and the font metrics
of `draw.textbbox` are external to the repository and are modelled by a fixed
rectangular text extent. -/

/-- An RGB colour. -/
abbrev Color := Int × Int × Int

/-- Image content: a colour for every (x, y) coordinate. -/
abbrev Img := Int → Int → Color

/-- The all-black image, used as the out-of-range default of `readImg`. -/
def blankImg : Img := fun _ _ => (0, 0, 0)

/-- The object store of live PIL images. -/
abbrev ImgStore := List Img

/-- Dereference an image: the content stored at reference `r`. -/
def readSlot : ImgStore → Nat → Option Img
  | [], _ => none
  | i :: _, 0 => some i
  | _ :: rest, n + 1 => readSlot rest n

/-- The content at reference `r` (out-of-range reads give `blankImg`; they
never occur). -/
def readImg (s : ImgStore) (r : Nat) : Img :=
  (readSlot s r).getD blankImg

/-- Overwrite the content at reference `r` (an in-place PIL drawing call). -/
def writeImg : ImgStore → Nat → Img → ImgStore
  | [], _, _ => []
  | _ :: rest, 0, img => img :: rest
  | i :: rest, n + 1, img => i :: writeImg rest n img

/-- `image.copy()`: allocate a fresh reference holding the same content. -/
def pyCopy (s : ImgStore) (r : Nat) : ImgStore × Nat :=
  (s ++ [readImg s r], s.length)

/-- `LANG_COLORS` from `overlay.py`. -/
def LANG_COLORS : List (String × Color) :=
  [("eng", (0, 200, 100)), ("hin", (255, 150, 0)),
   ("ben", (100, 100, 255)), ("tam", (200, 50, 200))]

/-- `DEFAULT_COLOR` from `overlay.py`. -/
def DEFAULT_COLOR : Color := (0, 200, 200)

/-- `LANG_COLORS.get(det.get("language", "eng"), DEFAULT_COLOR)`. -/
def colorFor (det : Detection) : Color :=
  (LANG_COLORS.lookup (det.language.getD "eng")).getD DEFAULT_COLOR

/-- `draw.rectangle([x0, y0, x1, y1], outline=c)`: paint the rectangle's
boundary pixels. -/
def drawRectOutline (img : Img) (x0 y0 x1 y1 : Int) (c : Color) : Img :=
  fun i j =>
    if (x0 ≤ i ∧ i ≤ x1 ∧ (j = y0 ∨ j = y1)) ∨ (y0 ≤ j ∧ j ≤ y1 ∧ (i = x0 ∨ i = x1))
    then c else img i j

/-- `draw.rectangle([x0, y0, x1, y1], fill=c)`: paint the filled rectangle. -/
def drawRectFill (img : Img) (x0 y0 x1 y1 : Int) (c : Color) : Img :=
  fun i j => if x0 ≤ i ∧ i ≤ x1 ∧ y0 ≤ j ∧ j ≤ y1 then c else img i j

/-- Model of the external font metric `draw.textbbox((x, y), s, font)`: the
text extent as an `(x0, y0, x1, y1)` rectangle of height `fontH`. -/
def textExtent (x y : Int) (s : String) (fontH : Int) : Int × Int × Int × Int :=
  (x, y, x + fontH * (s.length : Int), y + fontH)

/-- Model of the external glyph rasteriser `draw.text((x, y), s, fill=c)`:
paint the text extent. -/
def drawTextStr (img : Img) (x y : Int) (s : String) (c : Color) (fontH : Int) : Img :=
  let e := textExtent x y s fontH
  drawRectFill img e.1 e.2.1 e.2.2.1 e.2.2.2 c

/-- The per-detection body of the loop in `draw_bounding_boxes` (lines 49-58
of `overlay.py`): for `i in range(thickness)`, outline the box inflated by
`i`, drawing in place on the image at reference `r`. -/
def drawBoxesStep (r : Nat) (s : ImgStore) (det : Detection) : ImgStore :=
  let b := det.bbox
  (List.range 2).foldl
    (fun st i =>
      writeImg st r
        (drawRectOutline (readImg st r) (b.1 - (i : Int)) (b.2.1 - (i : Int))
          (b.1 + b.2.2.1 + (i : Int)) (b.2.1 + b.2.2.2 + (i : Int)) (colorFor det)))
    s

/-- `draw_bounding_boxes` from `overlay.py` (lines 40-60): copy the input
image, then outline every detection's box on the copy (default thickness 2).
Returns the store and the reference of the annotated copy. -/
def draw_bounding_boxes (s : ImgStore) (r : Nat) (dets : List Detection) :
    ImgStore × Nat :=
  let p := pyCopy s r
  (dets.foldl (drawBoxesStep p.2) p.1, p.2)

/-- The per-detection body of the loop in `draw_text_annotations` (lines
74-107 of `overlay.py`): above the box (clamped to the top edge), draw the
translated text on an opaque black background, then the original text on a
background of the language colour, in place on the image at reference `r`. -/
def drawLabelsStep (r : Nat) (s : ImgStore) (det : Detection) : ImgStore :=
  let b := det.bbox
  let x := b.1
  let label_y := max 0 (b.2.1 - 18)
  let color := colorFor det
  let afterTranslated : ImgStore × Int :=
    match det.translated_text with
    | some t =>
        if t = "" then (s, label_y)
        else
          let e := textExtent x label_y t 14
          let s1 := writeImg s r
            (drawRectFill (readImg s r) (e.1 - 2) (e.2.1 - 2) (e.2.2.1 + 2) (e.2.2.2 + 2) (0, 0, 0))
          let s2 := writeImg s1 r
            (drawTextStr (readImg s1 r) x label_y t (255, 255, 255) 14)
          (s2, max 0 (label_y - 20))
    | none => (s, label_y)
  let sMid := afterTranslated.1
  let yMid := afterTranslated.2
  if det.text = "" then sMid
  else
    let e := textExtent x yMid det.text 11
    let s3 := writeImg sMid r
      (drawRectFill (readImg sMid r) (e.1 - 2) (e.2.1 - 2) (e.2.2.1 + 2) (e.2.2.2 + 2) color)
    writeImg s3 r (drawTextStr (readImg s3 r) x yMid det.text (0, 0, 0) 11)

/-- `draw_text_annotations` from `overlay.py` (lines 63-109): copy the input
image, then draw every detection's labels on the copy. -/
def draw_text_annotations (s : ImgStore) (r : Nat) (dets : List Detection) :
    ImgStore × Nat :=
  let p := pyCopy s r
  (dets.foldl (drawLabelsStep p.2) p.1, p.2)

/-- `create_annotated_frame` from `overlay.py` (lines 112-121): an empty
detection list yields a plain copy; otherwise boxes are drawn on a copy and
labels on a copy of that. -/
def create_annotated_frame (s : ImgStore) (r : Nat) (dets : List Detection) :
    ImgStore × Nat :=
  if dets = [] then pyCopy s r
  else
    let p1 := draw_bounding_boxes s r dets
    draw_text_annotations p1.1 p1.2 dets

/-! ## Lemmas about the translation stage -/

/-- `translate_detections` is the elementwise update of the detections list,
and its remote-call count is the sum of the per-detection counts. -/
theorem translate_detections_eq_map (svc : RemoteService) (target : String)
    (dets : List Detection) :
    translate_detections svc dets target =
      (dets.map (fun d => (translateOne svc target d).1),
       (dets.map (fun d => (translateOne svc target d).2)).sum) := by
  induction dets with
  | nil => rfl
  | cons d rest ih => simp [translate_detections, ih]

/-- The output of `translate_detections` at index `j` depends only on the
input detection at index `j`. -/
theorem translate_detections_get? (svc : RemoteService) (target : String)
    (dets : List Detection) (j : Nat) :
    (translate_detections svc dets target).1.get? j =
      (dets.get? j).map (fun d => (translateOne svc target d).1) := by
  rw [translate_detections_eq_map]
  exact List.get?_map _ _ _

/-- On any failure outcome of the remote call (non-200 status, timeout,
connection error, or other exception), `translate_text` returns `None`, after
one remote call. -/
theorem translate_text_failure (svc : RemoteService) (text source target : String)
    (hb : isBlank text = false) (hst : source ≠ target)
    (hf : isFailureOutcome (svc text source target) = true) :
    translate_text svc text source target = (none, 1) := by
  unfold translate_text
  rw [hb]
  simp only [Bool.false_eq_true, if_false, if_neg hst]
  cases h : svc text source target with
  | http status body =>
      rw [h] at hf
      have hs : status ≠ 200 := of_decide_eq_true hf
      simp [if_neg hs]
  | timeout => rfl
  | connError => rfl
  | exnOther => rfl

/-- On a failure outcome, `translateOne` falls back to the original text with
status `"failed"`, after one remote call. -/
theorem translateOne_failure (svc : RemoteService) (target : String) (det : Detection)
    (hst : sourceCodeOf det ≠ target) (hb : isBlank det.text = false)
    (hf : isFailureOutcome (svc det.text (sourceCodeOf det) target) = true) :
    translateOne svc target det =
      ({ det with translated_text := some det.text,
                  translation_status := some "failed" }, 1) := by
  simp only [translateOne]
  rw [if_neg hst, translate_text_failure svc det.text (sourceCodeOf det) target hb hst hf]

/-! ## Claims about the translation stage -/

/-- Claim C1 (code bug): the claim says the remote translation call is
invoked at most `M` times per job, where `M` is the number of distinct
`(trimmed text, source language, target language)` triples.  The code has no
deduplication: a job consisting of two frames that both contain the same
detection has `M = 1` distinct triple, yet the job's translation pass
(`app.py` lines 190-191 over `translate_detections`) performs two remote
calls. -/
theorem claim_C1_code_bug_eval :
    distinctTripleCount [[dHola], [dHola]] "en" = 1 ∧
    (translate_job svcOK [[dHola], [dHola]] "en").2 = 2 := by decide

/-- Claim C2 (spec-modelled): whatever cache state a previous job left
behind, the orchestrator's `clear_cache()` call (`app.py` line 164) runs
before the job's translation pass, so the cache observed at the start of the
translation pass is empty and contains no entry from any other job. -/
theorem claim_C2_cache_cleared (svc : RemoteService) (cache0 : TranslationCache)
    (frames : List (List Detection)) (target : String) :
    (process_job svc cache0 frames target).cacheAtTranslationStart = [] ∧
    ∀ e, e ∉ (process_job svc cache0 frames target).cacheAtTranslationStart := by
  exact ⟨rfl, by simp [process_job, clear_cache]⟩

/-- Claim C3: when the remote call for a detection fails (timeout, connection
error, non-success HTTP status, or any other exception), that detection gets
`translated_text` equal to its original text and `translation_status`
`"failed"`, and no failure propagates: every other detection of the list is
still processed exactly as it would be on its own. -/
theorem claim_C3_failure_fallback (svc : RemoteService) (target : String)
    (dets : List Detection) (i : Nat) (det : Detection)
    (hi : dets.get? i = some det)
    (hb : isBlank det.text = false)
    (hst : sourceCodeOf det ≠ target)
    (hf : isFailureOutcome (svc det.text (sourceCodeOf det) target) = true) :
    (translate_detections svc dets target).1.get? i =
      some { det with translated_text := some det.text,
                      translation_status := some "failed" } ∧
    ∀ j, (translate_detections svc dets target).1.get? j =
      (dets.get? j).map (fun d => (translateOne svc target d).1) := by
  refine ⟨?_, fun j => translate_detections_get? svc target dets j⟩
  rw [translate_detections_get? svc target dets i, hi]
  simp [translateOne_failure svc target det hst hb hf]

/-- Witness for claim C3 at a concrete input: a single Hindi detection whose
remote call times out. -/
theorem claim_C3_witness :
    (translate_detections svcTimeout [dHola] "en").1.get? 0 =
      some { dHola with translated_text := some dHola.text,
                        translation_status := some "failed" } :=
  (claim_C3_failure_fallback svcTimeout "en" [dHola] 0 dHola (by decide) (by decide)
    (by decide) (by decide)).1

/-- Claim C4: a detection whose source language's mapped code equals the
target language code is short-circuited: `translated_text` is the original
text, `translation_status` is `"same_language"`, and zero remote calls are
made for it. -/
theorem claim_C4_same_language (svc : RemoteService) (target : String)
    (dets : List Detection) (i : Nat) (det : Detection)
    (hi : dets.get? i = some det)
    (h : sourceCodeOf det = target) :
    (translate_detections svc dets target).1.get? i =
      some { det with translated_text := some det.text,
                      translation_status := some "same_language" } ∧
    (translateOne svc target det).2 = 0 := by
  constructor
  · rw [translate_detections_get? svc target dets i, hi]
    simp [translateOne, h]
  · simp [translateOne, h]

/-- Witness for claim C4 at a concrete input: an English detection translated
to English. -/
theorem claim_C4_witness :
    (translate_detections svcOK [dHello] "en").1.get? 0 =
      some { dHello with translated_text := some dHello.text,
                         translation_status := some "same_language" } ∧
    (translateOne svcOK "en" dHello).2 = 0 :=
  claim_C4_same_language svcOK "en" [dHello] 0 dHello (by decide) (by decide)

/-- Counterexample to claim C5: the claim says a detection with empty or
whitespace-only text is returned unchanged with its `translation_status` left
untouched.  On the empty-text detection `dEmpty` (whose status is `none`),
the translation stage sets `translation_status` to `"failed"` and adds a
`translated_text` field, so the detection is changed. -/
theorem claim_C5_counterexample :
    (translateOne svcOK "en" dEmpty).1.translation_status ≠ dEmpty.translation_status ∧
    (translateOne svcOK "en" dEmpty).1 ≠ dEmpty := by decide

/-- Claim C5 as amended: a detection with empty or whitespace-only text
causes no remote call and gets `translated_text` equal to its original text,
but its `translation_status` is set (not left untouched): `"same_language"`
when the mapped source code equals the target, otherwise `"failed"` for empty
text and `"success"` for nonempty whitespace-only text. -/
theorem claim_C5_amended (svc : RemoteService) (target : String) (det : Detection)
    (hb : isBlank det.text = true) :
    (translateOne svc target det).2 = 0 ∧
    (translateOne svc target det).1.translated_text = some det.text ∧
    (translateOne svc target det).1.translation_status =
      some (if sourceCodeOf det = target then "same_language"
            else if det.text = "" then "failed" else "success") := by
  by_cases h : sourceCodeOf det = target
  · simp [translateOne, h]
  · have ht : translate_text svc det.text (sourceCodeOf det) target = (some det.text, 0) := by
      unfold translate_text
      rw [hb]
      simp
    by_cases he : det.text = ""
    · simp only [translateOne, if_neg h, ht]
      simp [he]
    · simp only [translateOne, if_neg h, ht]
      simp [he]

/-- Witness for the amended claim C5 at a concrete input: the whitespace-only
detection `dSpace`. -/
theorem claim_C5_witness :
    (translateOne svcOK "en" dSpace).2 = 0 ∧
    (translateOne svcOK "en" dSpace).1.translated_text = some dSpace.text ∧
    (translateOne svcOK "en" dSpace).1.translation_status =
      some (if sourceCodeOf dSpace = "en" then "same_language"
            else if dSpace.text = "" then "failed" else "success") :=
  claim_C5_amended svcOK "en" dSpace (by decide)

/-- Claim C6 (code bug): the claim says a second run of the translation stage
on the same detections yields identical output with no additional remote
calls.  The code has no cache (`src/pipeline/translate.py` defines none, and
the `clear_cache` it is supposed to export for `app.py` is absent): the
second run does yield identical output, but it repeats the remote call (one
additional call instead of zero). -/
theorem claim_C6_code_bug_eval :
    (translate_detections svcOK (translate_detections svcOK [dHola] "en").1 "en").1 =
      (translate_detections svcOK [dHola] "en").1 ∧
    (translate_detections svcOK (translate_detections svcOK [dHola] "en").1 "en").2 = 1 := by
  decide

/-- Claim C10: if the remote service answers HTTP 200 with a JSON body that
has no `translatedText` field, `translate_text` falls back to the original
text, and `translate_detections` marks the detection `"success"` with
`translated_text` equal to the untranslated original. -/
theorem claim_C10_missing_field (svc : RemoteService) (target : String)
    (dets : List Detection) (i : Nat) (det : Detection) (body : List (String × String))
    (hi : dets.get? i = some det)
    (hb : isBlank det.text = false)
    (hst : sourceCodeOf det ≠ target)
    (hsvc : svc det.text (sourceCodeOf det) target = .http 200 body)
    (hbody : body.lookup "translatedText" = none) :
    (translate_detections svc dets target).1.get? i =
      some { det with translated_text := some det.text,
                      translation_status := some "success" } := by
  have hne : det.text ≠ "" := by
    intro h
    rw [h] at hb
    simp [isBlank] at hb
  have ht : translate_text svc det.text (sourceCodeOf det) target = (some det.text, 1) := by
    unfold translate_text
    rw [hb]
    simp only [Bool.false_eq_true, if_false, if_neg hst, hsvc]
    simp [jsonGetD, hbody]
  rw [translate_detections_get? svc target dets i, hi]
  simp [translateOne, hst, ht, hne]

/-- Witness for claim C10 at a concrete input: a Hindi detection against a
service answering 200 with an empty JSON object. -/
theorem claim_C10_witness :
    (translate_detections svcNoField [dHola] "en").1.get? 0 =
      some { dHola with translated_text := some dHola.text,
                        translation_status := some "success" } :=
  claim_C10_missing_field svcNoField "en" [dHola] 0 dHola [] (by decide) (by decide)
    (by decide) (by decide) (by decide)

/-! ## Claim C8: `max_frames` validation and frame extraction -/

/-- Counterexample to claim C8 as stated: the claim says the processing
endpoint accepts any integer `max_frames` from 1 to 30 inclusive, but the
endpoint's validation (`Query(8, ge=1, le=20)`, `app.py` line 130) rejects
30. -/
theorem claim_C8_counterexample :
    (1 ≤ (30 : Int) ∧ (30 : Int) ≤ 30) ∧ acceptsMaxFrames 30 = false := by decide

/-- Claim C8 as amended: the endpoint accepts exactly the integers
`max_frames` from 1 to 20 inclusive; for an accepted bound, frame extraction
produces at most `max_frames` (index, image) pairs; and a single still image
produces exactly one pair with index 0. -/
theorem claim_C8_amended {α : Type} (n : Int) (video : List α) (convert : α → α)
    (max_frames : Nat) (image : α) (hmf : 1 ≤ max_frames) :
    (acceptsMaxFrames n = true ↔ 1 ≤ n ∧ n ≤ 20) ∧
    (extract_frames_from_video video convert max_frames).length ≤ max_frames ∧
    framesForImage image = [(0, image)] := by
  refine ⟨?_, ?_, rfl⟩
  · simp [acceptsMaxFrames]
  · unfold extract_frames_from_video
    by_cases h : video.length = 0
    · simp [h]
    · rw [if_neg h]
      calc (((video.enum.filter (fun p => p.1 % max 1 (video.length / max_frames) = 0)).map
              (fun p => (p.1, convert p.2))).take max_frames).length
          ≤ max_frames := by
            rw [List.length_take]
            exact min_le_left _ _

/-- Witness for the amended claim C8 at a concrete input: `max_frames = 2`
on a five-frame video, a seven as the probe integer, and a still image. -/
theorem claim_C8_witness :
    (acceptsMaxFrames 7 = true ↔ 1 ≤ (7 : Int) ∧ (7 : Int) ≤ 20) ∧
    (extract_frames_from_video [10, 20, 30, 40, 50] id 2).length ≤ 2 ∧
    framesForImage 99 = [(0, 99)] :=
  claim_C8_amended 7 [10, 20, 30, 40, 50] id 2 99 (by decide)

/-! ## Lemmas about line grouping (`group_text_by_lines`) -/

/-- Appending no words changes nothing. -/
theorem extendEntry_nil (o : Option LineData) : extendEntry o [] = o := by
  cases o <;> rfl

/-- `appendMany` peels one word at a time. -/
theorem appendMany_cons (ld : LineData) (d : RawBox) (ws : List RawBox) :
    appendMany ld (d :: ws) = appendMany (appendWord ld d) ws := rfl

/-- Effect of one grouping-loop iteration on the entry of an arbitrary key. -/
theorem findLine_insertWord (acc : List ((Int × Int) × LineData)) (d : RawBox)
    (k : Int × Int) :
    findLine (insertWord acc d) k =
      if keyOf d = k then some (appendWord ((findLine acc k).getD ⟨[], [], []⟩) d)
      else findLine acc k := by
  induction acc with
  | nil =>
      by_cases h : keyOf d = k
      · simp [insertWord, findLine, h]
      · simp [insertWord, findLine, h]
  | cons e rest ih =>
      obtain ⟨k1, ld1⟩ := e
      by_cases h1 : k1 = keyOf d
      · by_cases h2 : k1 = k
        · have hk : keyOf d = k := h1 ▸ h2
          simp [insertWord, findLine, h1, h2, hk]
        · have hk : ¬ keyOf d = k := fun h => h2 (h1.trans h)
          simp [insertWord, findLine, h1, h2, hk]
      · by_cases h2 : k1 = k
        · have hk : ¬ keyOf d = k := fun h => h1 (h2.trans h.symm)
          have h1k : ¬ k = keyOf d := fun h => hk h.symm
          simp [insertWord, findLine, h1, h2, hk, h1k]
        · simp [insertWord, findLine, h1, h2, ih]

/-- Filtering a cons by key. -/
theorem wordsOfKey_cons (d : RawBox) (dets : List RawBox) (k : Int × Int) :
    wordsOfKey (d :: dets) k =
      if keyOf d = k then d :: wordsOfKey dets k else wordsOfKey dets k := by
  by_cases h : keyOf d = k
  · simp [wordsOfKey, List.filter_cons, h]
  · simp [wordsOfKey, List.filter_cons, h]

/-- Core characterisation of the grouping loop: starting from any dict state
`acc`, the entry of key `k` after folding the words `dets` is the entry
before, extended by exactly the words of `dets` whose key is `k`, in their
original order. -/
theorem findLine_foldl_insertWord (dets : List RawBox) :
    ∀ (acc : List ((Int × Int) × LineData)) (k : Int × Int),
      findLine (dets.foldl insertWord acc) k =
        extendEntry (findLine acc k) (wordsOfKey dets k) := by
  induction dets with
  | nil =>
      intro acc k
      simp [wordsOfKey, extendEntry_nil]
  | cons d rest ih =>
      intro acc k
      rw [List.foldl_cons, ih, findLine_insertWord, wordsOfKey_cons]
      by_cases h : keyOf d = k
      · rw [if_pos h, if_pos h]
        cases ho : findLine acc k with
        | some ld => simp [extendEntry, appendMany_cons]
        | none =>
            cases hw : wordsOfKey rest k with
            | nil => simp [extendEntry, appendMany_cons]
            | cons w ws => simp [extendEntry, appendMany_cons]
      · rw [if_neg h, if_neg h]

/-- One grouping-loop iteration either leaves the key list unchanged (key
already present) or appends the new key at the end (Python dict insertion
order). -/
theorem mapFst_insertWord (acc : List ((Int × Int) × LineData)) (d : RawBox) :
    (insertWord acc d).map Prod.fst =
      if keyOf d ∈ acc.map Prod.fst then acc.map Prod.fst
      else acc.map Prod.fst ++ [keyOf d] := by
  induction acc with
  | nil => simp [insertWord]
  | cons e rest ih =>
      obtain ⟨k1, ld1⟩ := e
      by_cases h1 : k1 = keyOf d
      · simp [insertWord, h1]
      · have h1s : ¬ keyOf d = k1 := fun h => h1 h.symm
        by_cases hm : keyOf d ∈ rest.map Prod.fst
        · simp [insertWord, h1, h1s, hm, ih]
        · simp [insertWord, h1, h1s, hm, ih]

/-- The key list of the grouping dict is the first-occurrence key fold. -/
theorem mapFst_foldl_insertWord (dets : List RawBox) :
    ∀ acc : List ((Int × Int) × LineData),
      (dets.foldl insertWord acc).map Prod.fst =
        dets.foldl (fun ks d => if keyOf d ∈ ks then ks else ks ++ [keyOf d])
          (acc.map Prod.fst) := by
  induction dets with
  | nil => intro acc; rfl
  | cons d rest ih =>
      intro acc
      rw [List.foldl_cons, List.foldl_cons, ih, mapFst_insertWord]

/-- The distinct keys of a frame are the grouping dict's key list. -/
theorem mapFst_buildLines (dets : List RawBox) :
    (buildLines dets).map Prod.fst = distinctKeys dets := by
  rw [buildLines, mapFst_foldl_insertWord, distinctKeys, firstOccur, List.foldl_map]
  apply List.foldl_ext
  intro ks d _
  by_cases h : keyOf d ∈ ks
  · simp [h]
  · simp [h]

/-- The first-occurrence key fold preserves key-list distinctness. -/
theorem nodup_keyFold (dets : List RawBox) :
    ∀ acc : List (Int × Int), acc.Nodup →
      (dets.foldl (fun ks d => if keyOf d ∈ ks then ks else ks ++ [keyOf d]) acc).Nodup := by
  induction dets with
  | nil => intro acc h; exact h
  | cons d rest ih =>
      intro acc h
      rw [List.foldl_cons]
      by_cases hm : keyOf d ∈ acc
      · rw [if_pos hm]; exact ih acc h
      · rw [if_neg hm]
        refine ih _ ?_
        simp [List.nodup_append, h, hm]

/-- The grouping dict's keys are distinct. -/
theorem nodup_mapFst_buildLines (dets : List RawBox) :
    ((buildLines dets).map Prod.fst).Nodup := by
  rw [buildLines, mapFst_foldl_insertWord]
  exact nodup_keyFold dets [] List.nodup_nil

/-- In an association list with distinct keys, membership determines the
lookup. -/
theorem findLine_of_mem (l : List ((Int × Int) × LineData)) (k : Int × Int)
    (ld : LineData) (hn : (l.map Prod.fst).Nodup) (hm : (k, ld) ∈ l) :
    findLine l k = some ld := by
  induction l with
  | nil => cases hm
  | cons e rest ih =>
      obtain ⟨k1, ld1⟩ := e
      rw [List.map_cons, List.nodup_cons] at hn
      rcases List.mem_cons.mp hm with h | h
      · obtain ⟨hk, hld⟩ := Prod.mk.injEq .. ▸ h
        simp [findLine, hk.symm, hld]
      · have hne : ¬ k1 = k := by
          intro he
          exact hn.1 (he ▸ (List.mem_map.mpr ⟨(k, ld), h, rfl⟩))
        simp [findLine, hne, ih hn.2 h]

/-- Membership through sorted insertion. -/
theorem mem_insertSorted (x y : (Int × Int) × LineData)
    (l : List ((Int × Int) × LineData)) :
    y ∈ insertSorted x l ↔ y = x ∨ y ∈ l := by
  induction l with
  | nil => simp [insertSorted]
  | cons e rest ih =>
      by_cases h : keyLE x.1 e.1
      · simp [insertSorted, h]
      · simp [insertSorted, h, ih]
        tauto

/-- Sorting the dict items neither adds nor removes items. -/
theorem mem_sortByKey (l : List ((Int × Int) × LineData))
    (y : (Int × Int) × LineData) : y ∈ sortByKey l ↔ y ∈ l := by
  induction l with
  | nil => simp [sortByKey]
  | cons e rest ih =>
      rw [sortByKey, List.foldr_cons]
      rw [mem_insertSorted]
      rw [sortByKey] at ih
      rw [ih]
      simp

/-- Sorted insertion grows the list by one. -/
theorem length_insertSorted (x : (Int × Int) × LineData)
    (l : List ((Int × Int) × LineData)) :
    (insertSorted x l).length = l.length + 1 := by
  induction l with
  | nil => rfl
  | cons e rest ih =>
      by_cases h : keyLE x.1 e.1
      · simp [insertSorted, h]
      · simp [insertSorted, h, ih]

/-- Sorting preserves length. -/
theorem length_sortByKey (l : List ((Int × Int) × LineData)) :
    (sortByKey l).length = l.length := by
  induction l with
  | nil => rfl
  | cons e rest ih =>
      rw [sortByKey, List.foldr_cons, length_insertSorted]
      rw [sortByKey] at ih
      rw [ih, List.length_cons]

/-- A fresh entry extended by a nonempty run of words. -/
theorem extendEntry_none_ne_nil (ws : List RawBox) (h : ws ≠ []) :
    extendEntry none ws = some (appendMany ⟨[], [], []⟩ ws) := by
  cases ws with
  | nil => exact absurd rfl h
  | cons w ws0 => rfl

/-- The accumulator built from a run of words holds exactly their texts,
boxes and confidences, in order. -/
theorem appendMany_fields (ws : List RawBox) :
    ∀ ld : LineData,
      appendMany ld ws =
        ⟨ld.texts ++ ws.map (fun d => d.text),
         ld.bboxes ++ ws.map (fun d => d.bbox),
         ld.confidences ++ ws.map (fun d => d.confidence)⟩ := by
  induction ws with
  | nil => intro ld; simp [appendMany]
  | cons d rest ih =>
      intro ld
      rw [appendMany_cons, ih]
      simp [appendWord, List.append_assoc]

/-- Merging the accumulator of a run of words gives the spec's merged
detection: joined text, union box, rounded mean confidence. -/
theorem mergeLine_fields (k : Int × Int) (ws : List RawBox) :
    mergeLine (k, ⟨ws.map (fun d => d.text), ws.map (fun d => d.bbox),
                   ws.map (fun d => d.confidence)⟩) =
      { text := specMergedText ws
        bbox := specMergedBBox ws
        confidence := specMeanConfTenths ws
        language := some (detect_language (specMergedText ws)) } := by
  simp [mergeLine, specMergedText, specMergedBBox, specMeanConfTenths, meanConfTenths,
    List.map_map, Function.comp_def]

/-- Claim C7: line grouping merges all word boxes sharing one
`(block_num, line_num)` key into one detection whose text joins the words
with single spaces in their original order, whose bounding box is the union
of the word boxes (min of left/top edges, max of right/bottom edges), and
whose confidence is the simple mean of the word confidences rounded to one
decimal place; there is exactly one merged detection per distinct key. -/
theorem claim_C7_line_grouping (dets : List RawBox) :
    (∀ g ∈ group_text_by_lines dets, ∃ k,
        wordsOfKey dets k ≠ [] ∧
        g.text = specMergedText (wordsOfKey dets k) ∧
        g.bbox = specMergedBBox (wordsOfKey dets k) ∧
        g.confidence = specMeanConfTenths (wordsOfKey dets k)) ∧
    (group_text_by_lines dets).length = (distinctKeys dets).length := by
  by_cases hd : dets = []
  · subst hd
    constructor
    · intro g hg
      simp [group_text_by_lines] at hg
    · decide
  · constructor
    · intro g hg
      rw [group_text_by_lines, if_neg hd] at hg
      obtain ⟨e, he, hge⟩ := List.mem_map.mp hg
      obtain ⟨k, ld⟩ := e
      have hmem : (k, ld) ∈ buildLines dets := (mem_sortByKey _ _).mp he
      have hfind : findLine (buildLines dets) k = some ld :=
        findLine_of_mem _ _ _ (nodup_mapFst_buildLines dets) hmem
      rw [buildLines, findLine_foldl_insertWord dets [] k] at hfind
      have hnone : findLine ([] : List ((Int × Int) × LineData)) k = none := rfl
      rw [hnone] at hfind
      have hne : wordsOfKey dets k ≠ [] := by
        intro h0
        rw [h0] at hfind
        simp [extendEntry] at hfind
      rw [extendEntry_none_ne_nil _ hne] at hfind
      have hld : ld = appendMany ⟨[], [], []⟩ (wordsOfKey dets k) :=
        (Option.some_inj.mp hfind).symm
      have hmerge : mergeLine (k, ld) =
          { text := specMergedText (wordsOfKey dets k)
            bbox := specMergedBBox (wordsOfKey dets k)
            confidence := specMeanConfTenths (wordsOfKey dets k)
            language := some (detect_language (specMergedText (wordsOfKey dets k))) } := by
        rw [hld, appendMany_fields]
        simpa using mergeLine_fields k (wordsOfKey dets k)
      refine ⟨k, hne, ?_, ?_, ?_⟩
      · rw [← hge, hmerge]
      · rw [← hge, hmerge]
      · rw [← hge, hmerge]
    · rw [group_text_by_lines, if_neg hd, List.length_map, length_sortByKey,
        ← mapFst_buildLines, List.length_map]

/-- Witness for claim C7 at the spec's example: two word boxes `(0,0,10,10)`
and `(15,5,10,10)` on the same line merge into one detection with box
`(0,0,25,15)`, text `"NO SMOKING"` and confidence the rounded mean. -/
theorem claim_C7_witness :
    (∃ k, wordsOfKey demoBoxes k ≠ [] ∧
        gDemo.text = specMergedText (wordsOfKey demoBoxes k) ∧
        gDemo.bbox = specMergedBBox (wordsOfKey demoBoxes k) ∧
        gDemo.confidence = specMeanConfTenths (wordsOfKey demoBoxes k)) ∧
    (group_text_by_lines demoBoxes).length = (distinctKeys demoBoxes).length :=
  ⟨(claim_C7_line_grouping demoBoxes).1 gDemo (by decide),
   (claim_C7_line_grouping demoBoxes).2⟩

/-! ## Lemmas about the renderer's object discipline (`overlay.py`) -/

/-- Writing one image slot leaves every other slot unchanged. -/
theorem readSlot_writeImg_ne (s : ImgStore) (r q : Nat) (img : Img) (h : q ≠ r) :
    readSlot (writeImg s r img) q = readSlot s q := by
  induction s generalizing r q with
  | nil => rfl
  | cons i rest ih =>
      cases r with
      | zero =>
          cases q with
          | zero => exact absurd rfl h
          | succ q0 => rfl
      | succ r0 =>
          cases q with
          | zero => rfl
          | succ q0 => exact ih r0 q0 (fun he => h (by rw [he]))

/-- Writing a slot does not change the number of live images. -/
theorem writeImg_length (s : ImgStore) (r : Nat) (img : Img) :
    (writeImg s r img).length = s.length := by
  induction s generalizing r with
  | nil => rfl
  | cons i rest ih =>
      cases r with
      | zero => rfl
      | succ r0 => simp [writeImg, ih r0]

/-- Allocating new images leaves the existing slots readable unchanged. -/
theorem readSlot_append_lt (s t : ImgStore) (q : Nat) (h : q < s.length) :
    readSlot (s ++ t) q = readSlot s q := by
  induction s generalizing q with
  | nil => cases h
  | cons i rest ih =>
      cases q with
      | zero => rfl
      | succ q0 => exact ih q0 (by simpa using h)

/-- The freshly allocated slot holds the allocated content. -/
theorem readSlot_append_length (s : ImgStore) (img : Img) :
    readSlot (s ++ [img]) s.length = some img := by
  induction s with
  | nil => rfl
  | cons i rest ih => simpa using ih

/-- A loop whose body only writes the slot `rT` leaves every other slot
unchanged. -/
theorem foldl_readSlot_ne {β : Type} (f : ImgStore → β → ImgStore) (rT : Nat)
    (hf : ∀ st b q, q ≠ rT → readSlot (f st b) q = readSlot st q) :
    ∀ (l : List β) (st : ImgStore) (q : Nat), q ≠ rT →
      readSlot (l.foldl f st) q = readSlot st q := by
  intro l
  induction l with
  | nil => intro st q _; rfl
  | cons b rest ih =>
      intro st q hq
      rw [List.foldl_cons, ih (f st b) q hq, hf st b q hq]

/-- A loop whose body preserves the store size preserves the store size. -/
theorem foldl_length_eq {β : Type} (f : ImgStore → β → ImgStore)
    (hf : ∀ st b, (f st b).length = st.length) :
    ∀ (l : List β) (st : ImgStore), (l.foldl f st).length = st.length := by
  intro l
  induction l with
  | nil => intro st; rfl
  | cons b rest ih =>
      intro st
      rw [List.foldl_cons, ih (f st b), hf st b]

/-- The box-drawing loop body only writes the slot it draws on. -/
theorem drawBoxesStep_readSlot_ne (rT : Nat) (st : ImgStore) (det : Detection)
    (q : Nat) (hq : q ≠ rT) :
    readSlot (drawBoxesStep rT st det) q = readSlot st q := by
  unfold drawBoxesStep
  exact foldl_readSlot_ne _ rT
    (fun st2 i q0 hq0 => readSlot_writeImg_ne st2 rT q0 _ hq0) _ st q hq

/-- The box-drawing loop body preserves the store size. -/
theorem drawBoxesStep_length (rT : Nat) (st : ImgStore) (det : Detection) :
    (drawBoxesStep rT st det).length = st.length := by
  unfold drawBoxesStep
  exact foldl_length_eq _ (fun st2 i => writeImg_length st2 rT _) _ st

/-- The label-drawing loop body only writes the slot it draws on. -/
theorem drawLabelsStep_readSlot_ne (rT : Nat) (st : ImgStore) (det : Detection)
    (q : Nat) (hq : q ≠ rT) :
    readSlot (drawLabelsStep rT st det) q = readSlot st q := by
  cases ht : det.translated_text with
  | none =>
      by_cases he : det.text = ""
      · simp [drawLabelsStep, ht, he]
      · simp [drawLabelsStep, ht, he, readSlot_writeImg_ne, hq]
  | some t =>
      by_cases h0 : t = ""
      · by_cases he : det.text = ""
        · simp [drawLabelsStep, ht, h0, he]
        · simp [drawLabelsStep, ht, h0, he, readSlot_writeImg_ne, hq]
      · by_cases he : det.text = ""
        · simp [drawLabelsStep, ht, h0, he, readSlot_writeImg_ne, hq]
        · simp [drawLabelsStep, ht, h0, he, readSlot_writeImg_ne, hq]

/-- The label-drawing loop body preserves the store size. -/
theorem drawLabelsStep_length (rT : Nat) (st : ImgStore) (det : Detection) :
    (drawLabelsStep rT st det).length = st.length := by
  cases ht : det.translated_text with
  | none =>
      by_cases he : det.text = ""
      · simp [drawLabelsStep, ht, he]
      · simp [drawLabelsStep, ht, he, writeImg_length]
  | some t =>
      by_cases h0 : t = ""
      · by_cases he : det.text = ""
        · simp [drawLabelsStep, ht, h0, he]
        · simp [drawLabelsStep, ht, h0, he, writeImg_length]
      · by_cases he : det.text = ""
        · simp [drawLabelsStep, ht, h0, he, writeImg_length]
        · simp [drawLabelsStep, ht, h0, he, writeImg_length]

/-- Claim C9: the renderer never mutates the input frame — every live image
the store held before the call, the input frame included, reads back
unchanged, and the returned reference is a new image, distinct from the
input's; when the detection list is empty the returned image is an
unmodified copy of the input frame. -/
theorem claim_C9_renderer (s : ImgStore) (r : Nat) (dets : List Detection)
    (h : r < s.length) :
    (∀ q, q < s.length →
        readSlot (create_annotated_frame s r dets).1 q = readSlot s q) ∧
    (create_annotated_frame s r dets).2 ≠ r ∧
    (dets = [] →
        readImg (create_annotated_frame s r dets).1 (create_annotated_frame s r dets).2 =
          readImg s r) := by
  by_cases hd : dets = []
  · subst hd
    have hc : create_annotated_frame s r [] = pyCopy s r := by
      simp [create_annotated_frame]
    refine ⟨?_, ?_, fun _ => ?_⟩
    · intro q hq
      rw [hc]
      exact readSlot_append_lt s _ q hq
    · rw [hc]
      show s.length ≠ r
      omega
    · rw [hc]
      show readImg (s ++ [readImg s r]) s.length = readImg s r
      rw [readImg, readSlot_append_length]
      rfl
  · have hc : create_annotated_frame s r dets =
        draw_text_annotations (draw_bounding_boxes s r dets).1
          (draw_bounding_boxes s r dets).2 dets := by
      simp [create_annotated_frame, hd]
    have hb1 : (draw_bounding_boxes s r dets).1 =
        dets.foldl (drawBoxesStep s.length) (s ++ [readImg s r]) := by
      simp [draw_bounding_boxes, pyCopy]
    have hb2 : (draw_bounding_boxes s r dets).2 = s.length := by
      simp [draw_bounding_boxes, pyCopy]
    have hlen1 : (draw_bounding_boxes s r dets).1.length = s.length + 1 := by
      rw [hb1, foldl_length_eq _ (fun st det => drawBoxesStep_length s.length st det)]
      simp
    have ht1 : (draw_text_annotations (draw_bounding_boxes s r dets).1
          (draw_bounding_boxes s r dets).2 dets).1 =
        dets.foldl (drawLabelsStep ((draw_bounding_boxes s r dets).1.length))
          ((draw_bounding_boxes s r dets).1 ++
            [readImg (draw_bounding_boxes s r dets).1 (draw_bounding_boxes s r dets).2]) := by
      simp [draw_text_annotations, pyCopy]
    have ht2 : (draw_text_annotations (draw_bounding_boxes s r dets).1
          (draw_bounding_boxes s r dets).2 dets).2 =
        (draw_bounding_boxes s r dets).1.length := by
      simp [draw_text_annotations, pyCopy]
    refine ⟨?_, ?_, fun he => absurd he hd⟩
    · intro q hq
      rw [hc, ht1]
      rw [foldl_readSlot_ne _ _
        (fun st det q0 hq0 => drawLabelsStep_readSlot_ne _ st det q0 hq0) dets _ q
        (by rw [hlen1]; omega)]
      rw [readSlot_append_lt _ _ q (by rw [hlen1]; omega)]
      rw [hb1]
      rw [foldl_readSlot_ne _ s.length
        (fun st det q0 hq0 => drawBoxesStep_readSlot_ne s.length st det q0 hq0) dets _ q
        (by omega)]
      exact readSlot_append_lt s _ q hq
    · rw [hc, ht2, hlen1]
      omega

/-- Witness for claim C9 at a concrete input: a one-image store with an empty
detection list. -/
theorem claim_C9_witness :
    (∀ q, q < ([blankImg] : ImgStore).length →
        readSlot (create_annotated_frame [blankImg] 0 []).1 q = readSlot [blankImg] q) ∧
    (create_annotated_frame [blankImg] 0 []).2 ≠ 0 ∧
    (([] : List Detection) = [] →
        readImg (create_annotated_frame [blankImg] 0 []).1
            (create_annotated_frame [blankImg] 0 []).2 =
          readImg [blankImg] 0) :=
  claim_C9_renderer [blankImg] 0 [] (by decide)
